import Mathlib

/-!
Verification development for a NetCDF classic (v1/v2) binary decoder.

The decoder is a TypeScript program; this file gives a shallow embedding of
its data model and operations as executable Lean definitions, together with
theorems about the parser, the type codec and the data extractor.

Modelling conventions:
* The byte image is a `List Nat` of byte values and the IOBuffer cursor is a
  structure holding the image, the current offset and the endianness flag, as
  in the bundled IOBuffer class (reads via DataView throw RangeError when they
  would pass the end of the view; we surface that as `JsErr.rangeError`).
* Thrown JS exceptions are modelled with `Except JsErr`.
* JS `null` and `undefined` are distinct values; `JsVal` keeps that
  distinction where the program relies on it (`utils.find` returns `null`
  while its callers compare against `undefined`).
* JS number division may produce fractions; where the program divides sizes
  (`variable.size / num2bytes(type)`) we compute in `Rat` and model
  `new Array(q)` / `new Uint8Array(q)`, which throw RangeError unless the
  length is a nonnegative integer, by `jsArrayLength`.
* IEEE-754 float reads are modelled by their big-endian bit pattern
  (`JsNum.f32bits` / `JsNum.f64bits`); no float arithmetic is performed by
  the decoder, so this representation is faithful and injective.
-/

namespace NetCDF

/-- Errors thrown by the decoder: `TypeError` thrown by `utils.notNetcdf`
(carrying the full message), `RangeError` from out-of-bounds DataView reads
or invalid array lengths, and the JS `TypeError` raised when reading a
property of `null`. -/
inductive JsErr where
  | typeError (msg : String)
  | rangeError
  | nullDeref (prop : String)
deriving DecidableEq

/-- A JS value that may also be `null` or `undefined`. -/
inductive JsVal (α : Type) where
  | val (a : α)
  | null
  | undef
deriving DecidableEq

instance jsValBEq {α : Type} [DecidableEq α] : BEq (JsVal α) := ⟨fun a b => decide (a = b)⟩

/-- JS strict equality `===` between two number-or-null-or-undefined values. -/
def jsStrictEqNat (a b : JsVal Nat) : Bool :=
  match a, b with
  | .val x, .val y => x == y
  | .null, .null => true
  | .undef, .undef => true
  | _, _ => false

/-- JS array indexing `xs[i]`: `undefined` when out of bounds. -/
def jsIndex (xs : List Nat) (i : Nat) : JsVal Nat :=
  match xs.drop i with
  | [] => .undef
  | x :: _ => .val x

/-- A JS number produced by the typed readers: an integer, or an IEEE-754
float represented by its bit pattern. -/
inductive JsNum where
  | int (i : Int)
  | f32bits (n : Nat)
  | f64bits (n : Nat)
deriving DecidableEq

/-- The dynamic `value` produced by `Type.readType`: a byte run (BYTE), a
string (CHAR), a scalar number, or an array of numbers. -/
inductive Value where
  | bytes (bs : List Nat)
  | text (s : String)
  | num (v : JsNum)
  | arr (vs : List JsNum)
deriving DecidableEq

/-- The unevaluated JS number `num / den`: every element-count in the
decoder is a JS division of an unsigned 32-bit size by a type width (one
of 1, 2, 4, 8, or -1 for an unknown type), or a literal count over
denominator 1.  Keeping numerator and denominator separate models the real
quotient exactly while staying computable. -/
structure JsDiv where
  num : Nat
  den : Int
deriving DecidableEq

/-- Whether the JS number `q.num / q.den` equals 1 (`size !== 1` test):
a/b = 1 exactly when b is non-zero and a = b (NaN and ±Infinity from b = 0
are never equal to 1). -/
def jsDivIsOne (q : JsDiv) : Bool :=
  (q.den != 0) && ((q.num : Int) == q.den)

/-- `new Array(q)` / `new Uint8Array(q)`: throws RangeError unless the
requested length `q.num / q.den` is a nonnegative integer (`-0` from a
zero numerator and negative denominator is a valid length 0; NaN and
Infinity from a zero denominator are not). -/
def jsArrayLength (q : JsDiv) : Except JsErr Nat :=
  if 0 < q.den then
    if q.den.toNat ∣ q.num then .ok (q.num / q.den.toNat) else .error .rangeError
  else if q.num = 0 ∧ q.den < 0 then .ok 0
  else .error .rangeError

/-- Number of iterations of the JS loop `for (i = 0; i < q; i++)` for the
number `q.num / q.den`: the ceiling of the quotient when positive, else
0. -/
def jsLoopCount (q : JsDiv) : Nat :=
  if 0 < q.den then (q.num + q.den.toNat - 1) / q.den.toNat else 0

/-- The IOBuffer cursor: an immutable byte image, a current offset and the
endianness flag (`littleEndian = true` on construction; the reader switches
to big-endian before parsing). -/
structure IOBuffer where
  data : List Nat
  offset : Nat
  littleEndian : Bool
deriving DecidableEq

/-- `IOBuffer.prototype.seek`: move the pointer to the given offset. -/
def IOBuffer.seek (b : IOBuffer) (offset : Nat) : IOBuffer :=
  { b with offset := offset }

/-- `IOBuffer.prototype.skip`: move the pointer n bytes forward. -/
def IOBuffer.skip (b : IOBuffer) (n : Nat) : IOBuffer :=
  { b with offset := b.offset + n }

/-- `IOBuffer.prototype.setBigEndian`. -/
def IOBuffer.setBigEndian (b : IOBuffer) : IOBuffer :=
  { b with littleEndian := false }

/-- Big-endian value of a byte list (most significant byte first). -/
def beVal (bs : List Nat) : Nat := bs.foldl (fun acc x => acc * 256 + x) 0

/-- A `w`-byte DataView read at the current offset, respecting the
endianness flag; RangeError when it would pass the end of the view. -/
def IOBuffer.getView (b : IOBuffer) (w : Nat) : Except JsErr Nat :=
  if b.offset + w ≤ b.data.length then
    .ok (beVal (if b.littleEndian then ((b.data.drop b.offset).take w).reverse
                else (b.data.drop b.offset).take w))
  else .error .rangeError

/-- Two's-complement reinterpretation of a `bits`-wide unsigned value. -/
def signed (bits : Nat) (v : Nat) : Int :=
  if v < 2 ^ (bits - 1) then (v : Int) else (v : Int) - 2 ^ bits

/-- `readUint8`: read one byte, advance by 1. -/
def IOBuffer.readUint8 (b : IOBuffer) : Except JsErr (Nat × IOBuffer) :=
  match b.getView 1 with
  | .ok v => .ok (v, { b with offset := b.offset + 1 })
  | .error e => .error e

/-- `readByte`: alias for `readUint8`. -/
def IOBuffer.readByte (b : IOBuffer) : Except JsErr (Nat × IOBuffer) :=
  b.readUint8

/-- `readInt8`. -/
def IOBuffer.readInt8 (b : IOBuffer) : Except JsErr (Int × IOBuffer) :=
  match b.getView 1 with
  | .ok v => .ok (signed 8 v, { b with offset := b.offset + 1 })
  | .error e => .error e

/-- `readInt16`: 16-bit signed integer, advance by 2. -/
def IOBuffer.readInt16 (b : IOBuffer) : Except JsErr (Int × IOBuffer) :=
  match b.getView 2 with
  | .ok v => .ok (signed 16 v, { b with offset := b.offset + 2 })
  | .error e => .error e

/-- `readUint32`: 32-bit unsigned integer, advance by 4. -/
def IOBuffer.readUint32 (b : IOBuffer) : Except JsErr (Nat × IOBuffer) :=
  match b.getView 4 with
  | .ok v => .ok (v, { b with offset := b.offset + 4 })
  | .error e => .error e

/-- `readInt32`: 32-bit signed integer, advance by 4. -/
def IOBuffer.readInt32 (b : IOBuffer) : Except JsErr (Int × IOBuffer) :=
  match b.getView 4 with
  | .ok v => .ok (signed 32 v, { b with offset := b.offset + 4 })
  | .error e => .error e

/-- `readFloat32`: the 4-byte IEEE-754 bit pattern, advance by 4. -/
def IOBuffer.readFloat32 (b : IOBuffer) : Except JsErr (Nat × IOBuffer) :=
  match b.getView 4 with
  | .ok v => .ok (v, { b with offset := b.offset + 4 })
  | .error e => .error e

/-- `readFloat64`: the 8-byte IEEE-754 bit pattern, advance by 8. -/
def IOBuffer.readFloat64 (b : IOBuffer) : Except JsErr (Nat × IOBuffer) :=
  match b.getView 8 with
  | .ok v => .ok (v, { b with offset := b.offset + 8 })
  | .error e => .error e

/-- `String.fromCharCode`: ToUint16 of the argument. -/
def fromCharCode (i : Int) : Char := Char.ofNat ((i % 65536).toNat)

/-- `readChar`: `String.fromCharCode(this.readInt8())`. -/
def IOBuffer.readChar (b : IOBuffer) : Except JsErr (Char × IOBuffer) :=
  match b.readInt8 with
  | .ok (i, b1) => .ok (fromCharCode i, b1)
  | .error e => .error e

/-- The loop inside `readChars`: read `n` one-byte characters. -/
def readCharsLoop : Nat → IOBuffer → Except JsErr (List Char × IOBuffer)
  | 0, b => .ok ([], b)
  | n + 1, b =>
    match b.readChar with
    | .error e => .error e
    | .ok (c, b1) =>
      match readCharsLoop n b1 with
      | .error e => .error e
      | .ok (cs, b2) => .ok (c :: cs, b2)

/-- `readChars(n)`: read `n` 1-byte ASCII characters as a string. -/
def IOBuffer.readChars (b : IOBuffer) (n : Nat) : Except JsErr (String × IOBuffer) :=
  match readCharsLoop n b with
  | .ok (cs, b1) => .ok (⟨cs⟩, b1)
  | .error e => .error e

/-- The loop inside `readBytes`: read `n` bytes. -/
def readBytesLoop : Nat → IOBuffer → Except JsErr (List Nat × IOBuffer)
  | 0, b => .ok ([], b)
  | n + 1, b =>
    match b.readByte with
    | .error e => .error e
    | .ok (v, b1) =>
      match readBytesLoop n b1 with
      | .error e => .error e
      | .ok (vs, b2) => .ok (v :: vs, b2)

/-- `readBytes(n)`: allocates `new Uint8Array(n)` (RangeError unless `n` is
a nonnegative integer) and fills it one byte at a time. -/
def IOBuffer.readBytes (b : IOBuffer) (q : JsDiv) : Except JsErr (List Nat × IOBuffer) :=
  match jsArrayLength q with
  | .ok n => readBytesLoop n b
  | .error e => .error e

/-- `type.cdfTypes`. -/
def cdfBYTE : Nat := 1
def cdfCHAR : Nat := 2
def cdfSHORT : Nat := 3
def cdfINT : Nat := 4
def cdfFLOAT : Nat := 5
def cdfDOUBLE : Nat := 6

/-- `type.num2str`: type code to symbolic name. -/
def num2str (type : Nat) : String :=
  if type = cdfBYTE then "byte"
  else if type = cdfCHAR then "char"
  else if type = cdfSHORT then "short"
  else if type = cdfINT then "int"
  else if type = cdfFLOAT then "float"
  else if type = cdfDOUBLE then "double"
  else "undefined"

/-- `type.num2bytes`: type code to wire size in bytes (-1 for unknown). -/
def num2bytes (type : Int) : Int :=
  if type = 1 then 1
  else if type = 2 then 1
  else if type = 3 then 2
  else if type = 4 then 4
  else if type = 5 then 4
  else if type = 6 then 8
  else -1

/-- `type.str2num`: symbolic name back to type code (-1 for unknown). -/
def str2num (type : String) : Int :=
  if type = "byte" then 1
  else if type = "char" then 2
  else if type = "short" then 3
  else if type = "int" then 4
  else if type = "float" then 5
  else if type = "double" then 6
  else -1

/-- `type.trimNull`: remove one trailing NUL character if present.  The
source tests `value.charCodeAt(value.length - 1) === 0`; on an empty string
`charCodeAt(-1)` is NaN, which is not 0, so the string is returned as is. -/
def trimNull (value : String) : String :=
  match value.data.getLast? with
  | some c => if c.toNat = 0 then String.mk value.data.dropLast else value
  | none => value

/-- The loop inside `readNumber` for `size !== 1`. -/
def readNumberLoop (reader : IOBuffer → Except JsErr (JsNum × IOBuffer)) :
    Nat → IOBuffer → Except JsErr (List JsNum × IOBuffer)
  | 0, b => .ok ([], b)
  | n + 1, b =>
    match reader b with
    | .error e => .error e
    | .ok (v, b1) =>
      match readNumberLoop reader n b1 with
      | .error e => .error e
      | .ok (vs, b2) => .ok (v :: vs, b2)

/-- `type.readNumber`: a run of `size` numbers (allocated with
`new Array(size)`) when `size !== 1`, otherwise a single scalar.  (The
source tests `size !== 1` with the run branch first; here the scalar
branch is first, with the same semantics.) -/
def readNumber (size : JsDiv) (reader : IOBuffer → Except JsErr (JsNum × IOBuffer))
    (b : IOBuffer) : Except JsErr (Value × IOBuffer) :=
  if jsDivIsOne size then
    match reader b with
    | .error e => .error e
    | .ok (v, b1) => .ok (.num v, b1)
  else
    match jsArrayLength size with
    | .error e => .error e
    | .ok n =>
      match readNumberLoop reader n b with
      | .error e => .error e
      | .ok (vs, b1) => .ok (.arr vs, b1)

/-- `buffer.readInt16` wrapped as a `JsNum` reader. -/
def readInt16Num (b : IOBuffer) : Except JsErr (JsNum × IOBuffer) :=
  match b.readInt16 with
  | .ok (v, b1) => .ok (.int v, b1)
  | .error e => .error e

/-- `buffer.readInt32` wrapped as a `JsNum` reader. -/
def readInt32Num (b : IOBuffer) : Except JsErr (JsNum × IOBuffer) :=
  match b.readInt32 with
  | .ok (v, b1) => .ok (.int v, b1)
  | .error e => .error e

/-- `buffer.readFloat32` wrapped as a `JsNum` reader. -/
def readFloat32Num (b : IOBuffer) : Except JsErr (JsNum × IOBuffer) :=
  match b.readFloat32 with
  | .ok (v, b1) => .ok (.f32bits v, b1)
  | .error e => .error e

/-- `buffer.readFloat64` wrapped as a `JsNum` reader. -/
def readFloat64Num (b : IOBuffer) : Except JsErr (JsNum × IOBuffer) :=
  match b.readFloat64 with
  | .ok (v, b1) => .ok (.f64bits v, b1)
  | .error e => .error e

/-- `utils.notNetcdf`: throw a TypeError with the prefixed reason when the
statement holds. -/
def notNetcdf (statement : Bool) (reason : String) : Except JsErr Unit :=
  if statement then .error (.typeError ("Not a valid NetCDF v3.x file: " ++ reason))
  else .ok ()

/-- `Type.readType`: read one element (or a run) of the given wire type. -/
def readType (b : IOBuffer) (type : Int) (size : JsDiv) : Except JsErr (Value × IOBuffer) :=
  if type = 1 then
    match b.readBytes size with
    | .ok (bs, b1) => .ok (.bytes bs, b1)
    | .error e => .error e
  else if type = 2 then
    match b.readChars (jsLoopCount size) with
    | .ok (s, b1) => .ok (.text (trimNull s), b1)
    | .error e => .error e
  else if type = 3 then readNumber size readInt16Num b
  else if type = 4 then readNumber size readInt32Num b
  else if type = 5 then readNumber size readFloat32Num b
  else if type = 6 then readNumber size readFloat64Num b
  else .error (.typeError ("Not a valid NetCDF v3.x file: non valid type " ++ toString type))

/-- `utils.padding`: advance to the next 4-byte boundary. -/
def padding (b : IOBuffer) : IOBuffer :=
  if b.offset % 4 ≠ 0 then b.skip (4 - b.offset % 4) else b

/-- `utils.readName`: u32 length, that many characters, then padding. -/
def readName (b : IOBuffer) : Except JsErr (String × IOBuffer) :=
  match b.readUint32 with
  | .error e => .error e
  | .ok (nameLength, b1) =>
    match b1.readChars nameLength with
    | .error e => .error e
    | .ok (name, b2) => .ok (name, padding b2)

/-- `utils.find`: linear scan by name; returns the first match or `null`. -/
def find {α : Type} (getName : α → String) (data : List α) (key : String) : JsVal α :=
  match data with
  | [] => .null
  | o :: rest => if getName o = key then .val o else find getName rest key

/-- `header.dimension`. -/
structure Dimension where
  name : String
  size : Nat
deriving DecidableEq

/-- `header.attribute`: the type is stored as its symbolic name. -/
structure Attribute where
  name : String
  type : String
  value : Value
deriving DecidableEq

/-- `header.variable`. -/
structure Variable where
  name : String
  dimensions : List Nat
  attributes : List Attribute
  type : String
  size : Nat
  offset : Nat
  record : Bool
deriving DecidableEq

/-- `header.recordDimension`: `id`, `name` and `recordStep` are set to
`null` when the file has no record dimension / no variables section. -/
structure RecordDimension where
  length : Nat
  id : JsVal Nat
  name : JsVal String
  recordStep : JsVal Nat
deriving DecidableEq

/-- `header.netcdfHeader`. -/
structure NetcdfHeader where
  recordDimension : RecordDimension
  version : Nat
  dimensions : List Dimension
  globalAttributes : List Attribute
  «variables» : List Variable
deriving DecidableEq

/-- Grammar constants from `header`. -/
def ZERO : Nat := 0
def NC_DIMENSION : Nat := 10
def NC_VARIABLE : Nat := 11
def NC_ATTRIBUTE : Nat := 12

/-- The body of the dimensions loop in `header.dimensionsList`:
`idx` is the running loop index `dim`; a dimension of size 0 (NC_UNLIMITED)
overwrites the running `recordId` / `recordName`. -/
def dimensionsLoop (count idx : Nat) (b : IOBuffer)
    (recordId : JsVal Nat) (recordName : JsVal String) :
    Except JsErr ((List Dimension × JsVal Nat × JsVal String) × IOBuffer) :=
  match count with
  | 0 => .ok (([], recordId, recordName), b)
  | n + 1 =>
    match readName b with
    | .error e => .error e
    | .ok (name, b1) =>
      match b1.readUint32 with
      | .error e => .error e
      | .ok (size, b2) =>
        let recordId1 := if size = 0 then .val idx else recordId
        let recordName1 := if size = 0 then .val name else recordName
        match dimensionsLoop n (idx + 1) b2 recordId1 recordName1 with
        | .error e => .error e
        | .ok ((dims, rid, rname), b3) => .ok ((Dimension.mk name size :: dims, rid, rname), b3)

/-- `header.dimensionsList`: tag, then either the ABSENT encoding or the
counted list of dimensions; tracks the record (unlimited) dimension. -/
def dimensionsList (b : IOBuffer) :
    Except JsErr ((List Dimension × JsVal Nat × JsVal String) × IOBuffer) :=
  match b.readUint32 with
  | .error e => .error e
  | .ok (dimList, b1) =>
    if dimList = ZERO then
      match b1.readUint32 with
      | .error e => .error e
      | .ok (z, b2) =>
        match notNetcdf (z != ZERO) "wrong empty tag for list of dimensions" with
        | .error e => .error e
        | .ok _ => .ok (([], .null, .null), b2)
    else
      match notNetcdf (dimList != NC_DIMENSION) "wrong tag for list of dimensions" with
      | .error e => .error e
      | .ok _ =>
        match b1.readUint32 with
        | .error e => .error e
        | .ok (dimensionSize, b2) => dimensionsLoop dimensionSize 0 b2 .null .null

/-- The body of the attributes loop in `header.attributesList`. -/
def attributesLoop (count : Nat) (b : IOBuffer) :
    Except JsErr (List Attribute × IOBuffer) :=
  match count with
  | 0 => .ok ([], b)
  | n + 1 =>
    match readName b with
    | .error e => .error e
    | .ok (name, b1) =>
      match b1.readUint32 with
      | .error e => .error e
      | .ok (type, b2) =>
        match notNetcdf (decide (type < 1) || decide (type > 6))
            ("non valid type " ++ toString type) with
        | .error e => .error e
        | .ok _ =>
          match b2.readUint32 with
          | .error e => .error e
          | .ok (size, b3) =>
            match readType b3 (type : Int) ⟨size, 1⟩ with
            | .error e => .error e
            | .ok (value, b4) =>
              match attributesLoop n (padding b4) with
              | .error e => .error e
              | .ok (atts, b5) => .ok (Attribute.mk name (num2str type) value :: atts, b5)

/-- `header.attributesList`: tag, then either the ABSENT encoding or the
counted list of attributes. -/
def attributesList (b : IOBuffer) : Except JsErr (List Attribute × IOBuffer) :=
  match b.readUint32 with
  | .error e => .error e
  | .ok (gAttList, b1) =>
    if gAttList = ZERO then
      match b1.readUint32 with
      | .error e => .error e
      | .ok (z, b2) =>
        match notNetcdf (z != ZERO) "wrong empty tag for list of attributes" with
        | .error e => .error e
        | .ok _ => .ok ([], b2)
    else
      match notNetcdf (gAttList != NC_ATTRIBUTE) "wrong tag for list of attributes" with
      | .error e => .error e
      | .ok _ =>
        match b1.readUint32 with
        | .error e => .error e
        | .ok (attributeSize, b2) => attributesLoop attributeSize b2

/-- The `dimensionality` u32s of dimension ids of one variable. -/
def readDimidsLoop : Nat → IOBuffer → Except JsErr (List Nat × IOBuffer)
  | 0, b => .ok ([], b)
  | n + 1, b =>
    match b.readUint32 with
    | .error e => .error e
    | .ok (v, b1) =>
      match readDimidsLoop n b1 with
      | .error e => .error e
      | .ok (vs, b2) => .ok (v :: vs, b2)

/-- The variable type validation in `header.variablesList`: the source
tests `(type < 1) && (type > 6)` (logical AND), so it never throws. -/
def variableTypeCheck (type : Nat) : Except JsErr Unit :=
  notNetcdf (decide (type < 1) && decide (type > 6)) ("non valid type " ++ toString type)

/-- The offset field of one variable: one u32 for version 1; for version 2
the high word is read first, rejected when non-zero, and the following low
word becomes the offset. -/
def readOffset (b : IOBuffer) (version : Nat) : Except JsErr (Nat × IOBuffer) :=
  match b.readUint32 with
  | .error e => .error e
  | .ok (offset, b1) =>
    if version = 2 then
      match notNetcdf (decide (offset > 0)) "offsets larger than 4GB not supported" with
      | .error e => .error e
      | .ok _ =>
        match b1.readUint32 with
        | .error e => .error e
        | .ok (offset2, b2) => .ok (offset2, b2)
    else .ok (offset, b1)

/-- One iteration of the variables loop in `header.variablesList`: parses a
single variable and returns its contribution to `recordStep` (its size when
it is a record variable, i.e. when `recordId` is not `undefined` and the
first dimension id strictly equals `recordId`). -/
def readVariableEntry (b : IOBuffer) (recordId : JsVal Nat) (version : Nat) :
    Except JsErr ((Variable × Nat) × IOBuffer) :=
  match readName b with
  | .error e => .error e
  | .ok (name, b1) =>
    match b1.readUint32 with
    | .error e => .error e
    | .ok (dimensionality, b2) =>
      match readDimidsLoop dimensionality b2 with
      | .error e => .error e
      | .ok (dimensionsIds, b3) =>
        match attributesList b3 with
        | .error e => .error e
        | .ok (attributes, b4) =>
          match b4.readUint32 with
          | .error e => .error e
          | .ok (type, b5) =>
            match variableTypeCheck type with
            | .error e => .error e
            | .ok _ =>
              match b5.readUint32 with
              | .error e => .error e
              | .ok (varSize, b6) =>
                match readOffset b6 version with
                | .error e => .error e
                | .ok (offset, b7) =>
                  let record := (recordId != JsVal.undef)
                    && jsStrictEqNat (jsIndex dimensionsIds 0) recordId
                  let contrib := if record then varSize else 0
                  .ok ((Variable.mk name dimensionsIds attributes (num2str type)
                        varSize offset record, contrib), b7)

/-- The variables loop of `header.variablesList`, threading the running
`recordStep` accumulator. -/
def variablesLoop (recordId : JsVal Nat) (version : Nat) :
    Nat → IOBuffer → Nat → Except JsErr ((List Variable × Nat) × IOBuffer)
  | 0, b, recordStep => .ok (([], recordStep), b)
  | n + 1, b, recordStep =>
    match readVariableEntry b recordId version with
    | .error e => .error e
    | .ok ((v, contrib), b1) =>
      match variablesLoop recordId version n b1 (recordStep + contrib) with
      | .error e => .error e
      | .ok ((vs, step), b2) => .ok ((v :: vs, step), b2)

/-- `header.variablesList`: tag, then either the ABSENT encoding (variables
empty, `recordStep` `null`) or the counted list with `recordStep` summed. -/
def variablesList (b : IOBuffer) (recordId : JsVal Nat) (version : Nat) :
    Except JsErr ((List Variable × JsVal Nat) × IOBuffer) :=
  match b.readUint32 with
  | .error e => .error e
  | .ok (varList, b1) =>
    if varList = ZERO then
      match b1.readUint32 with
      | .error e => .error e
      | .ok (z, b2) =>
        match notNetcdf (z != ZERO) "wrong empty tag for list of variables" with
        | .error e => .error e
        | .ok _ => .ok (([], .null), b2)
    else
      match notNetcdf (varList != NC_VARIABLE) "wrong tag for list of variables" with
      | .error e => .error e
      | .ok _ =>
        match b1.readUint32 with
        | .error e => .error e
        | .ok (variableSize, b2) =>
          match variablesLoop recordId version variableSize b2 0 with
          | .error e => .error e
          | .ok ((vars, step), b3) => .ok ((vars, .val step), b3)

/-- `header.readHeader`: record count, dimensions, global attributes,
variables, assembled into the header value. -/
def readHeader (b : IOBuffer) (version : Nat) : Except JsErr (NetcdfHeader × IOBuffer) :=
  match b.readUint32 with
  | .error e => .error e
  | .ok (numrecs, b1) =>
    match dimensionsList b1 with
    | .error e => .error e
    | .ok ((dims, recordId, recordName), b2) =>
      match attributesList b2 with
      | .error e => .error e
      | .ok (gatts, b3) =>
        match variablesList b3 recordId version with
        | .error e => .error e
        | .ok ((vars, recordStep), b4) =>
          .ok (⟨⟨numrecs, recordId, recordName, recordStep⟩,
                version, dims, gatts, vars⟩, b4)

/-- JS number coercion used in `currentOffset + step`: a `null` record step
coerces to 0 (a parsed header never carries `undefined` here). -/
def jsNumber (x : JsVal Nat) : Nat :=
  match x with
  | .val n => n
  | .null => 0
  | .undef => 0

/-- The loop of `Type.record`: before each record the current offset is
saved, one slice of `width` elements is read, and the cursor then seeks to
`currentOffset + step` (the full record stride). -/
def recordLoop (type : Int) (width : JsDiv) (step : Nat) :
    Nat → IOBuffer → Except JsErr (List Value × IOBuffer)
  | 0, b => .ok ([], b)
  | n + 1, b =>
    match readType b type width with
    | .error e => .error e
    | .ok (v, b1) =>
      match recordLoop type width step n (b1.seek (b.offset + step)) with
      | .error e => .error e
      | .ok (vs, b2) => .ok (v :: vs, b2)

/-- `Type.record`: read `recordDimension.length` records of the variable,
each of `width = size ? size / num2bytes(type) : 1` elements, strided by
`recordStep`. -/
def record (buffer : IOBuffer) (v : Variable) (recordDimension : RecordDimension) :
    Except JsErr (List Value × IOBuffer) :=
  let type := str2num v.type
  let width : JsDiv := if v.size ≠ 0 then ⟨v.size, num2bytes type⟩ else ⟨1, 1⟩
  let size := recordDimension.length
  let step := jsNumber recordDimension.recordStep
  recordLoop type width step size buffer

/-- The loop of `Type.nonRecord`: `size` elements, each one call of
`readType(type, 1)`. -/
def nonRecordLoop (type : Int) : Nat → IOBuffer → Except JsErr (List Value × IOBuffer)
  | 0, b => .ok ([], b)
  | n + 1, b =>
    match readType b type ⟨1, 1⟩ with
    | .error e => .error e
    | .ok (v, b1) =>
      match nonRecordLoop type n b1 with
      | .error e => .error e
      | .ok (vs, b2) => .ok (v :: vs, b2)

/-- `Type.nonRecord`: `new Array(variable.size / num2bytes(type))` elements
read contiguously one at a time. -/
def nonRecord (buffer : IOBuffer) (v : Variable) : Except JsErr (List Value × IOBuffer) :=
  let type := str2num v.type
  match jsArrayLength ⟨v.size, num2bytes type⟩ with
  | .error e => .error e
  | .ok size => nonRecordLoop type size buffer

/-- `utils.createInputBuffer` on a numeric array: `new Uint8Array(data)`
coerces every element to a byte. -/
def createInputBuffer (data : List Nat) : List Nat := data.map (fun x => x % 256)

/-- The reader facade `NetCDFReader`: the parsed header plus the cursor. -/
structure NetCDFReader where
  header : NetcdfHeader
  buffer : IOBuffer
deriving DecidableEq

/-- The `NetCDFReader` constructor: big-endian cursor over the byte image,
magic and version validation, then `header.readHeader`. -/
def NetCDFReader.make (data : List Nat) : Except JsErr NetCDFReader :=
  let buffer := IOBuffer.setBigEndian (IOBuffer.seek ⟨createInputBuffer data, 0, true⟩ 0)
  match buffer.readChars 3 with
  | .error e => .error e
  | .ok (magic, b1) =>
    match notNetcdf (magic != "CDF") "should start with CDF" with
    | .error e => .error e
    | .ok _ =>
      match b1.readByte with
      | .error e => .error e
      | .ok (version, b2) =>
        match notNetcdf (decide (version > 2)) "unknown version" with
        | .error e => .error e
        | .ok _ =>
          match readHeader b2 version with
          | .error e => .error e
          | .ok (header, b3) => .ok ⟨header, b3⟩

/-- `NetCDFReader.dataVariableExists`: the source compares the result of
`utils.find` (a variable or `null`) against `undefined`. -/
def dataVariableExists (r : NetCDFReader) (variableName : String) : Bool :=
  (find Variable.name r.header.variables variableName) != JsVal.undef

/-- `NetCDFReader.attributeExists`: the source compares the result of
`utils.find` (an attribute or `null`) against `undefined`. -/
def attributeExists (r : NetCDFReader) (attributeName : String) : Bool :=
  (find Attribute.name r.header.globalAttributes attributeName) != JsVal.undef

/-- `NetCDFReader.getDataVariable` (string overload): look the variable up
by name, test the result against `undefined` via `utils.notNetcdf`, then
access `variable.offset` (a TypeError on `null`), seek there and run the
record or non-record extractor. -/
def getDataVariable (r : NetCDFReader) (variableName : String) :
    Except JsErr (List Value × NetCDFReader) :=
  let «variable» := find Variable.name r.header.variables variableName
  match notNetcdf («variable» == JsVal.undef) ("variable not found: " ++ variableName) with
  | .error e => .error e
  | .ok _ =>
    match «variable» with
    | .val v =>
      let b := r.buffer.seek v.offset
      match (if v.record then record b v r.header.recordDimension else nonRecord b v) with
      | .error e => .error e
      | .ok (d, b1) => .ok (d, { r with buffer := b1 })
    | _ => .error (.nullDeref "offset")

/-- Sum of `size` over the variables whose first dimension id is `rid`. -/
def recordSum (vars : List Variable) (rid : Nat) : Nat :=
  ((vars.filter (fun v => decide (v.dimensions.head? = some rid))).map Variable.size).sum

/-- Big-endian bytes of a 32-bit value (helper for concrete inputs). -/
def u32 (n : Nat) : List Nat :=
  [n / 16777216 % 256, n / 65536 % 256, n / 256 % 256, n % 256]

/-- A minimal classic file: magic, version 1, zero records, and the three
lists in their ABSENT (tag 0, count 0) encodings. -/
def emptyFileBytes : List Nat :=
  [67, 68, 70, 1] ++ u32 0 ++ u32 0 ++ u32 0 ++ u32 0 ++ u32 0 ++ u32 0 ++ u32 0

/-- The reader produced by parsing `emptyFileBytes`. -/
def emptyReader : NetCDFReader :=
  ⟨⟨⟨0, .null, .null, .null⟩, 1, [], [], []⟩, ⟨emptyFileBytes, 32, false⟩⟩

/-- A classic file with one dimension "x" of size 3 and one variable "v"
declared with wire type code 7 (outside 1..6), size 6, offset 80. -/
def typeSevenBytes : List Nat :=
  [67, 68, 70, 1] ++ u32 0
  ++ u32 10 ++ u32 1 ++ u32 1 ++ [120, 0, 0, 0] ++ u32 3
  ++ u32 0 ++ u32 0
  ++ u32 11 ++ u32 1
  ++ u32 1 ++ [118, 0, 0, 0]
  ++ u32 1 ++ u32 0
  ++ u32 0 ++ u32 0
  ++ u32 7
  ++ u32 6 ++ u32 80

/-- Header bytes (after magic and version) of a file with a record
dimension "t" (size 0) and an ABSENT variables list. -/
def absentVarsHeaderBytes : List Nat :=
  u32 0
  ++ u32 10 ++ u32 1 ++ u32 1 ++ [116, 0, 0, 0] ++ u32 0
  ++ u32 0 ++ u32 0
  ++ u32 0 ++ u32 0

/-- Header bytes (after magic and version) of a file with a record
dimension "t" (size 0, one record) and one record variable "a" of type
SHORT, size 4, offset 100. -/
def recVarHeaderBytes : List Nat :=
  u32 1
  ++ u32 10 ++ u32 1 ++ u32 1 ++ [116, 0, 0, 0] ++ u32 0
  ++ u32 0 ++ u32 0
  ++ u32 11 ++ u32 1
  ++ u32 1 ++ [97, 0, 0, 0]
  ++ u32 1 ++ u32 0
  ++ u32 0 ++ u32 0
  ++ u32 3 ++ u32 4 ++ u32 100

/-- A version-2 file whose only variable has a non-zero high offset word. -/
def v2HighWordBytes : List Nat :=
  [67, 68, 70, 2] ++ u32 0 ++ u32 0 ++ u32 0 ++ u32 0 ++ u32 0
  ++ u32 11 ++ u32 1 ++ u32 1 ++ [118, 0, 0, 0] ++ u32 0 ++ u32 0 ++ u32 0
  ++ u32 3 ++ u32 2 ++ u32 1 ++ u32 40

/-- The same version-2 file with a zero high offset word and low word 96. -/
def v2ZeroHighBytes : List Nat :=
  [67, 68, 70, 2] ++ u32 0 ++ u32 0 ++ u32 0 ++ u32 0 ++ u32 0
  ++ u32 11 ++ u32 1 ++ u32 1 ++ [118, 0, 0, 0] ++ u32 0 ++ u32 0 ++ u32 0
  ++ u32 3 ++ u32 2 ++ u32 0 ++ u32 96

/-- A non-record SHORT variable of size 6 at offset 80 (scenario: one
dimension "x" of size 3, data bytes 00 01 00 02 00 03). -/
def shortVar : Variable := ⟨"v", [0], [], "short", 6, 80, false⟩

/-- A reader whose byte image carries `shortVar`'s data at offset 80. -/
def shortReader : NetCDFReader :=
  ⟨⟨⟨0, .null, .null, .null⟩, 1, [⟨"x", 3⟩], [], [shortVar]⟩,
   ⟨List.replicate 80 0 ++ [0, 1, 0, 2, 0, 3], 0, false⟩⟩

/-- The reader state after one `getDataVariable shortReader "v"` call. -/
def shortReaderAfter : NetCDFReader :=
  ⟨shortReader.header, ⟨List.replicate 80 0 ++ [0, 1, 0, 2, 0, 3], 86, false⟩⟩

/-- A record SHORT variable of size 4 at offset 0 over the record
dimension. -/
def recVar : Variable := ⟨"a", [0], [], "short", 4, 0, true⟩

/-- A reader with record dimension of length 2 and record step 4, whose
byte image interleaves two records of `recVar`. -/
def recReader : NetCDFReader :=
  ⟨⟨⟨2, .val 0, .val "t", .val 4⟩, 1, [⟨"t", 0⟩], [], [recVar]⟩,
   ⟨[0, 1, 0, 2, 0, 3, 0, 4], 0, false⟩⟩

/-- A 4-aligned cursor in front of an encoded name of length 2 ("ab"). -/
def nameBuf : IOBuffer := ⟨[0, 0, 0, 2, 97, 98, 0, 0], 0, false⟩

/-- The cursor after reading that name (4 + 2 + 2 padding bytes). -/
def nameBufAfter : IOBuffer := ⟨[0, 0, 0, 2, 97, 98, 0, 0], 8, false⟩

/-- A cursor in front of a version-2 offset with non-zero high word. -/
def offsetHighBuf : IOBuffer := ⟨u32 1 ++ u32 5, 0, false⟩

/-- A cursor in front of a version-2 offset with zero high word, low 7. -/
def offsetZeroBuf : IOBuffer := ⟨u32 0 ++ u32 7, 0, false⟩

/-- `recVarHeaderBytes` parses to this header. -/
def recVarHeader : NetcdfHeader :=
  ⟨⟨1, .val 0, .val "t", .val 4⟩, 1, [⟨"t", 0⟩], [], [⟨"a", [0], [], "short", 4, 100, true⟩]⟩

/-- The values extracted from `shortVar` by `shortReader`. -/
def shortData : List Value := [.num (.int 1), .num (.int 2), .num (.int 3)]

/-- The reader state after one `getDataVariable recReader "a"` call. -/
def recReaderAfter : NetCDFReader :=
  ⟨recReader.header, ⟨[0, 1, 0, 2, 0, 3, 0, 4], 8, false⟩⟩

/-- The values extracted from `recVar` by `recReader`: two records of two
shorts each. -/
def recData : List Value := [.arr [.int 1, .int 2], .arr [.int 3, .int 4]]

theorem find_ne_undef {α : Type} (getName : α → String) (data : List α) (key : String) :
    find getName data key ≠ JsVal.undef := by
  induction data with
  | nil => simp [find]
  | cons o rest ih =>
    simp only [find]
    split
    · simp
    · exact ih

theorem jsVal_bne_undef {α : Type} [DecidableEq α] (x : JsVal α) (h : x ≠ JsVal.undef) :
    (x != JsVal.undef) = true := by
  simp [bne, jsValBEq, h]

theorem readUint32_ok (b : IOBuffer) (v : Nat) (b1 : IOBuffer)
    (h : b.readUint32 = .ok (v, b1)) :
    b1.data = b.data ∧ b1.littleEndian = b.littleEndian ∧ b1.offset = b.offset + 4 := by
  unfold IOBuffer.readUint32 at h
  split at h
  · simp only [Except.ok.injEq, Prod.mk.injEq] at h
    rcases h with ⟨_, hb⟩
    subst hb
    simp
  · simp at h

theorem readInt8_ok (b : IOBuffer) (v : Int) (b1 : IOBuffer)
    (h : b.readInt8 = .ok (v, b1)) :
    b1.data = b.data ∧ b1.littleEndian = b.littleEndian ∧ b1.offset = b.offset + 1 := by
  unfold IOBuffer.readInt8 at h
  split at h
  · simp only [Except.ok.injEq, Prod.mk.injEq] at h
    rcases h with ⟨_, hb⟩
    subst hb
    simp
  · simp at h

theorem readChar_ok (b : IOBuffer) (c : Char) (b1 : IOBuffer)
    (h : b.readChar = .ok (c, b1)) :
    b1.data = b.data ∧ b1.littleEndian = b.littleEndian ∧ b1.offset = b.offset + 1 := by
  unfold IOBuffer.readChar at h
  split at h
  · rename_i i bA heq
    simp only [Except.ok.injEq, Prod.mk.injEq] at h
    rcases h with ⟨_, hb⟩
    subst hb
    exact readInt8_ok b i bA heq
  · simp at h

theorem readCharsLoop_ok (n : Nat) :
    ∀ (b : IOBuffer) (cs : List Char) (b1 : IOBuffer),
      readCharsLoop n b = .ok (cs, b1) →
      b1.data = b.data ∧ b1.littleEndian = b.littleEndian ∧
      b1.offset = b.offset + n ∧ cs.length = n := by
  induction n with
  | zero =>
    intro b cs b1 h
    simp only [readCharsLoop, Except.ok.injEq, Prod.mk.injEq] at h
    rcases h with ⟨hcs, hb⟩
    subst hb
    simp [← hcs]
  | succ m ih =>
    intro b cs b1 h
    simp only [readCharsLoop] at h
    split at h
    · simp at h
    · rename_i c bA heq
      split at h
      · simp at h
      · rename_i cs2 bB heq2
        simp only [Except.ok.injEq, Prod.mk.injEq] at h
        rcases h with ⟨hcs, hb⟩
        rcases readChar_ok b c bA heq with ⟨hd, hl, ho⟩
        rcases ih bA cs2 bB heq2 with ⟨hd2, hl2, ho2, hlen⟩
        subst hb
        refine ⟨by rw [hd2, hd], by rw [hl2, hl], by omega, ?_⟩
        rw [← hcs]
        simp [hlen]

theorem readChars_ok (b : IOBuffer) (n : Nat) (s : String) (b1 : IOBuffer)
    (h : b.readChars n = .ok (s, b1)) :
    b1.data = b.data ∧ b1.littleEndian = b.littleEndian ∧
    b1.offset = b.offset + n ∧ s.length = n := by
  unfold IOBuffer.readChars at h
  split at h
  · rename_i cs bA heq
    simp only [Except.ok.injEq, Prod.mk.injEq] at h
    rcases h with ⟨hs, hb⟩
    subst hb
    rcases readCharsLoop_ok n b cs bA heq with ⟨hd, hl, ho, hlen⟩
    exact ⟨hd, hl, ho, by rw [← hs]; simpa [String.length] using hlen⟩
  · simp at h

/-- Claim C7: the CHAR trimming function removes exactly one trailing NUL
character when the last character is NUL and otherwise returns the string
unchanged (so earlier NULs are retained verbatim), and the result length is
always the input length or one less. -/
theorem trimNull_spec (value : String) :
    (trimNull value).data =
      (if value.data.getLast?.map Char.toNat = some 0 then value.data.dropLast
       else value.data) ∧
    ((trimNull value).data.length = value.data.length ∨
     (trimNull value).data.length + 1 = value.data.length) := by
  have hmain : (trimNull value).data =
      (if value.data.getLast?.map Char.toNat = some 0 then value.data.dropLast
       else value.data) := by
    unfold trimNull
    cases hl : value.data.getLast? with
    | none => simp [hl]
    | some c => by_cases hc : c.toNat = 0 <;> simp [hl, hc]
  refine ⟨hmain, ?_⟩
  rw [hmain]
  split
  · rename_i hcond
    right
    have hne : value.data ≠ [] := by
      intro hnil
      rw [hnil] at hcond
      simp at hcond
    have hpos : 0 < value.data.length := List.length_pos.mpr hne
    have hdl := List.length_dropLast value.data
    omega
  · left
    rfl

/-- Claim C8: reading a name of byte length L from a 4-aligned cursor
advances the cursor by exactly 4 + L + pad(L) with
pad(L) = (4 − L mod 4) mod 4, and leaves it 4-aligned again. -/
theorem readName_advance_spec (b : IOBuffer) (name : String) (b1 : IOBuffer)
    (hal : b.offset % 4 = 0) (h : readName b = .ok (name, b1)) :
    b1.offset = b.offset + 4 + name.length + (4 - name.length % 4) % 4 ∧
    b1.offset % 4 = 0 := by
  unfold readName at h
  split at h
  · simp at h
  · rename_i len bA heq
    split at h
    · simp at h
    · rename_i nm bB heq2
      simp only [Except.ok.injEq, Prod.mk.injEq] at h
      rcases h with ⟨hs, hb⟩
      rcases readUint32_ok b len bA heq with ⟨_, _, hoA⟩
      rcases readChars_ok bA len nm bB heq2 with ⟨_, _, hoB, hlen⟩
      subst hb
      rw [← hs]
      unfold padding IOBuffer.skip
      split <;> rename_i hif <;> (try dsimp only) <;> constructor <;> omega

/-- Witness for C8 at a concrete 2-byte name. -/
theorem readName_advance_spec_witness :
    nameBuf.offset % 4 = 0 ∧
    (nameBufAfter.offset =
      nameBuf.offset + 4 + ("ab" : String).length + (4 - ("ab" : String).length % 4) % 4 ∧
     nameBufAfter.offset % 4 = 0) :=
  ⟨by decide, readName_advance_spec nameBuf "ab" nameBufAfter (by decide) (by rfl)⟩

/-- Claim C1 (code bug): the variable type validation never rejects any
code, because `(type < 1) && (type > 6)` is always false, so a file whose
variable declares wire type code 7 parses successfully and records the bad
code as the type name "undefined" instead of failing with the InvalidType
error the spec requires. -/
theorem variableTypeCheck_never_rejects :
    (∀ t : Nat, variableTypeCheck t = .ok ()) ∧
    ((NetCDFReader.make typeSevenBytes).toOption.map
      (fun r => r.header.variables.map Variable.type) = some ["undefined"]) := by
  constructor
  · intro t
    unfold variableTypeCheck notNetcdf
    have hfalse : (decide (t < 1) && decide (t > 6)) = false := by
      by_cases h1 : t < 1
      · have h2 : ¬ t > 6 := by omega
        simp [h2]
      · simp [h1]
    rw [hfalse]
    simp
  · rfl

/-- Claim C2 (code bug): both membership checks compare the result of
`utils.find` — which is a found entry or `null`, never `undefined` —
against `undefined`, so they return true for every name on every reader,
even on a parsed file with no attributes and no variables at all. -/
theorem membership_checks_always_true :
    (∀ (r : NetCDFReader) (name : String),
      dataVariableExists r name = true ∧ attributeExists r name = true) ∧
    ((NetCDFReader.make emptyFileBytes).toOption.map
      (fun r => (r.header.globalAttributes, attributeExists r "foo",
                 r.header.variables, dataVariableExists r "bar")) =
      some ([], true, [], true)) := by
  constructor
  · intro r name
    exact ⟨jsVal_bne_undef _ (find_ne_undef _ _ _),
           jsVal_bne_undef _ (find_ne_undef _ _ _)⟩
  · rfl

/-- Claim C3 (code bug): when the requested name matches no variable,
`utils.find` returns `null`, the `notNetcdf(variable === undefined, ...)`
guard does not fire, and `getDataVariable` fails by reading the `offset`
property of `null` — an error distinct from the NotFound message
required by the claim. -/
theorem getDataVariable_missing_nullDeref (r : NetCDFReader) (name : String)
    (h : find Variable.name r.header.variables name = .null) :
    getDataVariable r name = .error (.nullDeref "offset") ∧
    JsErr.nullDeref "offset" ≠
      .typeError ("Not a valid NetCDF v3.x file: variable not found: " ++ name) := by
  constructor
  · unfold getDataVariable
    rw [h]
    rfl
  · simp

/-- Witness for C3 on the parsed empty file. -/
theorem getDataVariable_missing_nullDeref_witness :
    find Variable.name emptyReader.header.variables "v" = .null ∧
    (getDataVariable emptyReader "v" = .error (.nullDeref "offset") ∧
     JsErr.nullDeref "offset" ≠
       .typeError ("Not a valid NetCDF v3.x file: variable not found: " ++ "v")) :=
  ⟨rfl, getDataVariable_missing_nullDeref emptyReader "v" rfl⟩

/-- Claim C6: a version-2 variable offset is read as two u32s, high word
first; a non-zero high word aborts header parsing with the "offsets larger
than 4GB not supported" error, and with a zero high word the following low
word becomes the offset.  The closed conjuncts run the whole parser on a
version-2 file of each kind. -/
theorem readOffset_version2_spec :
    (∀ (b b1 b2 : IOBuffer) (hi lo : Nat),
      b.readUint32 = .ok (hi, b1) → b1.readUint32 = .ok (lo, b2) →
      (hi ≠ 0 → readOffset b 2 = .error (.typeError
        "Not a valid NetCDF v3.x file: offsets larger than 4GB not supported")) ∧
      (hi = 0 → readOffset b 2 = .ok (lo, b2))) ∧
    (NetCDFReader.make v2HighWordBytes = .error (.typeError
      "Not a valid NetCDF v3.x file: offsets larger than 4GB not supported")) ∧
    ((NetCDFReader.make v2ZeroHighBytes).toOption.map
      (fun r => r.header.variables.map Variable.offset) = some [96]) := by
  refine ⟨?_, rfl, rfl⟩
  intro b b1 b2 hi lo h1 h2
  constructor
  · intro hne
    unfold readOffset
    rw [h1]
    have hd : decide (hi > 0) = true := by
      simp [Nat.pos_of_ne_zero hne]
    simp [notNetcdf, hd]
  · intro heq
    subst heq
    unfold readOffset
    rw [h1]
    simp [notNetcdf, h2]

/-- Witness for C6, instantiating the quantified conjunct at a zero and at
a non-zero high word. -/
theorem readOffset_version2_spec_witness :
    (((0 : Nat) ≠ 0 → readOffset offsetZeroBuf 2 = .error (.typeError
        "Not a valid NetCDF v3.x file: offsets larger than 4GB not supported")) ∧
     ((0 : Nat) = 0 → readOffset offsetZeroBuf 2 =
        .ok (7, ⟨u32 0 ++ u32 7, 8, false⟩))) ∧
    (((1 : Nat) ≠ 0 → readOffset offsetHighBuf 2 = .error (.typeError
        "Not a valid NetCDF v3.x file: offsets larger than 4GB not supported")) ∧
     ((1 : Nat) = 0 → readOffset offsetHighBuf 2 =
        .ok (5, ⟨u32 1 ++ u32 5, 8, false⟩))) :=
  ⟨readOffset_version2_spec.1 offsetZeroBuf ⟨u32 0 ++ u32 7, 4, false⟩
      ⟨u32 0 ++ u32 7, 8, false⟩ 0 7 rfl rfl,
   readOffset_version2_spec.1 offsetHighBuf ⟨u32 1 ++ u32 5, 4, false⟩
      ⟨u32 1 ++ u32 5, 8, false⟩ 1 5 rfl rfl⟩

/-- Claim C5 counterexample: a file with a record dimension (id 0) whose
variables section uses the ABSENT encoding parses with a `null`
`recordStep`, which is not the sum (0) of `size` over its (empty) list of
record variables. -/
theorem recordStep_absent_variables_counterexample :
    (readHeader (IOBuffer.mk absentVarsHeaderBytes 0 false) 1).toOption.map
      (fun p => (p.1.recordDimension.id, p.1.recordDimension.recordStep,
                 recordSum p.1.variables 0)) =
      some (.val 0, .null, 0) ∧
    (JsVal.null : JsVal Nat) ≠ .val 0 :=
  ⟨rfl, by simp⟩

theorem jsRecordFlag_eq (ids : List Nat) (rid : Nat) :
    ((JsVal.val rid != JsVal.undef) && jsStrictEqNat (jsIndex ids 0) (.val rid)) =
      decide (ids.head? = some rid) := by
  cases ids with
  | nil => simp [jsIndex, jsStrictEqNat, bne, jsValBEq]
  | cons x xs =>
    by_cases hx : x = rid <;> simp [jsIndex, jsStrictEqNat, bne, jsValBEq, hx]

theorem readVariableEntry_record_iff (b : IOBuffer) (rid : Nat) (version : Nat)
    (v : Variable) (contrib : Nat) (b1 : IOBuffer)
    (h : readVariableEntry b (.val rid) version = .ok ((v, contrib), b1)) :
    (v.record = true ↔ v.dimensions.head? = some rid) ∧
    contrib = (if v.dimensions.head? = some rid then v.size else 0) := by
  unfold readVariableEntry at h
  repeat' split at h
  any_goals exact Except.noConfusion h
  simp only [Except.ok.injEq, Prod.mk.injEq] at h
  rcases h with ⟨⟨hv, hc⟩, _⟩
  subst hv
  constructor
  · dsimp only
    rw [jsRecordFlag_eq]
    simp
  · rw [← hc]
    dsimp only
    rw [jsRecordFlag_eq]
    simp only [decide_eq_true_eq]

theorem recordSum_cons (v : Variable) (vs : List Variable) (rid : Nat) :
    recordSum (v :: vs) rid =
      (if v.dimensions.head? = some rid then v.size else 0) + recordSum vs rid := by
  by_cases hP : v.dimensions.head? = some rid <;> simp [recordSum, List.filter, hP]

theorem variablesLoop_spec (rid : Nat) (version : Nat) :
    ∀ (n : Nat) (b : IOBuffer) (acc : Nat) (vars : List Variable) (step : Nat)
      (b1 : IOBuffer),
      variablesLoop (.val rid) version n b acc = .ok ((vars, step), b1) →
      step = acc + recordSum vars rid ∧
      ∀ v ∈ vars, (v.record = true ↔ v.dimensions.head? = some rid) := by
  intro n
  induction n with
  | zero =>
    intro b acc vars step b1 h
    simp only [variablesLoop, Except.ok.injEq, Prod.mk.injEq] at h
    rcases h with ⟨⟨hv, hs⟩, _⟩
    subst hv
    subst hs
    simp [recordSum]
  | succ m ih =>
    intro b acc vars step b1 h
    simp only [variablesLoop] at h
    split at h
    · exact Except.noConfusion h
    · rename_i v contrib bA heq
      split at h
      · exact Except.noConfusion h
      · rename_i vs step2 bB heq2
        simp only [Except.ok.injEq, Prod.mk.injEq] at h
        rcases h with ⟨⟨hv, hs⟩, _⟩
        rcases readVariableEntry_record_iff b rid version v contrib bA heq with ⟨hiff, hcontrib⟩
        rcases ih bA (acc + contrib) vs step2 bB heq2 with ⟨hsum, hall⟩
        subst hv
        subst hs
        constructor
        · rw [hsum, hcontrib, recordSum_cons]
          omega
        · intro w hw
          rcases List.mem_cons.mp hw with hwv | hwvs
          · subst hwv
            exact hiff
          · exact hall w hwvs

/-- Claim C5, amended: after parsing a file with a record dimension of id
`rid`, either the variables section was present and `recordStep` equals the
sum of `size` over the variables whose first dimension id is `rid`, or the
variables section was ABSENT, in which case the variable list is empty and
`recordStep` is `null` (not 0); and in all cases a variable's record flag
is true exactly when its first dimension id equals `rid`. -/
theorem readHeader_recordStep_spec (b : IOBuffer) (version : Nat) (hdr : NetcdfHeader)
    (b1 : IOBuffer) (rid : Nat)
    (h : readHeader b version = .ok (hdr, b1))
    (hid : hdr.recordDimension.id = .val rid) :
    (hdr.recordDimension.recordStep = .val (recordSum hdr.variables rid) ∨
     (hdr.recordDimension.recordStep = .null ∧ hdr.variables = [])) ∧
    ∀ v ∈ hdr.variables, (v.record = true ↔ v.dimensions.head? = some rid) := by
  unfold readHeader at h
  split at h
  · exact Except.noConfusion h
  · rename_i numrecs bA heq1
    split at h
    · exact Except.noConfusion h
    · rename_i dims recordId recordName bB heq2
      split at h
      · exact Except.noConfusion h
      · rename_i gatts bC heq3
        split at h
        · exact Except.noConfusion h
        · rename_i vars recordStep bD heq4
          simp only [Except.ok.injEq, Prod.mk.injEq] at h
          rcases h with ⟨hhdr, _⟩
          subst hhdr
          dsimp only at hid ⊢
          subst hid
          unfold variablesList at heq4
          split at heq4
          · exact Except.noConfusion heq4
          · rename_i varList bE heq5
            split at heq4
            · split at heq4
              · exact Except.noConfusion heq4
              · rename_i z bF heq6
                split at heq4
                · exact Except.noConfusion heq4
                · simp only [Except.ok.injEq, Prod.mk.injEq] at heq4
                  rcases heq4 with ⟨⟨hv, hs⟩, _⟩
                  subst hv
                  subst hs
                  simp
            · split at heq4
              · exact Except.noConfusion heq4
              · split at heq4
                · exact Except.noConfusion heq4
                · rename_i count bF heq6
                  split at heq4
                  · exact Except.noConfusion heq4
                  · rename_i vars2 step2 bG heq7
                    simp only [Except.ok.injEq, Prod.mk.injEq] at heq4
                    rcases heq4 with ⟨⟨hv, hs⟩, _⟩
                    subst hv
                    subst hs
                    rcases variablesLoop_spec rid version count bF 0 vars2 step2 bG heq7
                      with ⟨hsum, hall⟩
                    exact ⟨Or.inl (by rw [hsum]; simp), hall⟩

/-- Witness for the amended C5 on a parsed file with a record dimension
and one present record variable of size 4. -/
theorem readHeader_recordStep_spec_witness :
    recVarHeader.recordDimension.id = .val 0 ∧
    ((recVarHeader.recordDimension.recordStep = .val (recordSum recVarHeader.variables 0) ∨
      (recVarHeader.recordDimension.recordStep = .null ∧ recVarHeader.variables = [])) ∧
     ∀ v ∈ recVarHeader.variables, (v.record = true ↔ v.dimensions.head? = some 0)) :=
  ⟨rfl, readHeader_recordStep_spec (IOBuffer.mk recVarHeaderBytes 0 false) 1 recVarHeader
     (IOBuffer.mk recVarHeaderBytes 76 false) 0 rfl rfl⟩

theorem notNetcdf_false (reason : String) : notNetcdf false reason = .ok () := rfl

theorem jsVal_val_beq_undef {α : Type} [DecidableEq α] (a : α) :
    ((JsVal.val a) == JsVal.undef) = false := by
  simp [jsValBEq]

theorem readUint8_ok (b : IOBuffer) (v : Nat) (b1 : IOBuffer)
    (h : b.readUint8 = .ok (v, b1)) :
    b1.data = b.data ∧ b1.littleEndian = b.littleEndian ∧ b1.offset = b.offset + 1 := by
  unfold IOBuffer.readUint8 at h
  split at h
  · simp only [Except.ok.injEq, Prod.mk.injEq] at h
    rcases h with ⟨_, hb⟩
    subst hb
    simp
  · simp at h

theorem readInt16_ok (b : IOBuffer) (v : Int) (b1 : IOBuffer)
    (h : b.readInt16 = .ok (v, b1)) :
    b1.data = b.data ∧ b1.littleEndian = b.littleEndian ∧ b1.offset = b.offset + 2 := by
  unfold IOBuffer.readInt16 at h
  split at h
  · simp only [Except.ok.injEq, Prod.mk.injEq] at h
    rcases h with ⟨_, hb⟩
    subst hb
    simp
  · simp at h

theorem readInt32_ok (b : IOBuffer) (v : Int) (b1 : IOBuffer)
    (h : b.readInt32 = .ok (v, b1)) :
    b1.data = b.data ∧ b1.littleEndian = b.littleEndian ∧ b1.offset = b.offset + 4 := by
  unfold IOBuffer.readInt32 at h
  split at h
  · simp only [Except.ok.injEq, Prod.mk.injEq] at h
    rcases h with ⟨_, hb⟩
    subst hb
    simp
  · simp at h

theorem readFloat32_ok (b : IOBuffer) (v : Nat) (b1 : IOBuffer)
    (h : b.readFloat32 = .ok (v, b1)) :
    b1.data = b.data ∧ b1.littleEndian = b.littleEndian ∧ b1.offset = b.offset + 4 := by
  unfold IOBuffer.readFloat32 at h
  split at h
  · simp only [Except.ok.injEq, Prod.mk.injEq] at h
    rcases h with ⟨_, hb⟩
    subst hb
    simp
  · simp at h

theorem readFloat64_ok (b : IOBuffer) (v : Nat) (b1 : IOBuffer)
    (h : b.readFloat64 = .ok (v, b1)) :
    b1.data = b.data ∧ b1.littleEndian = b.littleEndian ∧ b1.offset = b.offset + 8 := by
  unfold IOBuffer.readFloat64 at h
  split at h
  · simp only [Except.ok.injEq, Prod.mk.injEq] at h
    rcases h with ⟨_, hb⟩
    subst hb
    simp
  · simp at h

theorem readBytesLoop_pres (n : Nat) :
    ∀ (b : IOBuffer) (vs : List Nat) (b1 : IOBuffer),
      readBytesLoop n b = .ok (vs, b1) →
      b1.data = b.data ∧ b1.littleEndian = b.littleEndian := by
  induction n with
  | zero =>
    intro b vs b1 h
    simp only [readBytesLoop, Except.ok.injEq, Prod.mk.injEq] at h
    rcases h with ⟨_, hb⟩
    subst hb
    exact ⟨rfl, rfl⟩
  | succ m ih =>
    intro b vs b1 h
    simp only [readBytesLoop] at h
    split at h
    · exact Except.noConfusion h
    · rename_i v bA heq
      split at h
      · exact Except.noConfusion h
      · rename_i vs2 bB heq2
        simp only [Except.ok.injEq, Prod.mk.injEq] at h
        rcases h with ⟨_, hb⟩
        subst hb
        rcases readUint8_ok b v bA heq with ⟨hd, hl, _⟩
        rcases ih bA vs2 bB heq2 with ⟨hd2, hl2⟩
        exact ⟨by rw [hd2, hd], by rw [hl2, hl]⟩

theorem readBytes_pres (b : IOBuffer) (q : JsDiv) (vs : List Nat) (b1 : IOBuffer)
    (h : b.readBytes q = .ok (vs, b1)) :
    b1.data = b.data ∧ b1.littleEndian = b.littleEndian := by
  unfold IOBuffer.readBytes at h
  split at h
  · rename_i n heq
    exact readBytesLoop_pres n b vs b1 h
  · exact Except.noConfusion h

theorem readNumberLoop_pres
    (reader : IOBuffer → Except JsErr (JsNum × IOBuffer))
    (hr : ∀ (b : IOBuffer) (v : JsNum) (b1 : IOBuffer), reader b = .ok (v, b1) →
      b1.data = b.data ∧ b1.littleEndian = b.littleEndian)
    (n : Nat) :
    ∀ (b : IOBuffer) (vs : List JsNum) (b1 : IOBuffer),
      readNumberLoop reader n b = .ok (vs, b1) →
      b1.data = b.data ∧ b1.littleEndian = b.littleEndian := by
  induction n with
  | zero =>
    intro b vs b1 h
    simp only [readNumberLoop, Except.ok.injEq, Prod.mk.injEq] at h
    rcases h with ⟨_, hb⟩
    subst hb
    exact ⟨rfl, rfl⟩
  | succ m ih =>
    intro b vs b1 h
    simp only [readNumberLoop] at h
    split at h
    · exact Except.noConfusion h
    · rename_i v bA heq
      split at h
      · exact Except.noConfusion h
      · rename_i vs2 bB heq2
        simp only [Except.ok.injEq, Prod.mk.injEq] at h
        rcases h with ⟨_, hb⟩
        subst hb
        rcases hr b v bA heq with ⟨hd, hl⟩
        rcases ih bA vs2 bB heq2 with ⟨hd2, hl2⟩
        exact ⟨by rw [hd2, hd], by rw [hl2, hl]⟩

theorem readNumber_pres (size : JsDiv)
    (reader : IOBuffer → Except JsErr (JsNum × IOBuffer))
    (hr : ∀ (b : IOBuffer) (v : JsNum) (b1 : IOBuffer), reader b = .ok (v, b1) →
      b1.data = b.data ∧ b1.littleEndian = b.littleEndian)
    (b : IOBuffer) (v : Value) (b1 : IOBuffer)
    (h : readNumber size reader b = .ok (v, b1)) :
    b1.data = b.data ∧ b1.littleEndian = b.littleEndian := by
  unfold readNumber at h
  split at h
  · split at h
    · exact Except.noConfusion h
    · rename_i w bA heq
      simp only [Except.ok.injEq, Prod.mk.injEq] at h
      rcases h with ⟨_, hb⟩
      subst hb
      exact hr b w bA heq
  · split at h
    · exact Except.noConfusion h
    · rename_i n heq
      split at h
      · exact Except.noConfusion h
      · rename_i vs bA heq2
        simp only [Except.ok.injEq, Prod.mk.injEq] at h
        rcases h with ⟨_, hb⟩
        subst hb
        exact readNumberLoop_pres reader hr n b vs bA heq2

theorem readInt16Num_pres (b : IOBuffer) (v : JsNum) (b1 : IOBuffer)
    (h : readInt16Num b = .ok (v, b1)) :
    b1.data = b.data ∧ b1.littleEndian = b.littleEndian := by
  unfold readInt16Num at h
  split at h
  · rename_i w bA heq
    simp only [Except.ok.injEq, Prod.mk.injEq] at h
    rcases h with ⟨_, hb⟩
    subst hb
    rcases readInt16_ok b w bA heq with ⟨hd, hl, _⟩
    exact ⟨hd, hl⟩
  · exact Except.noConfusion h

theorem readInt32Num_pres (b : IOBuffer) (v : JsNum) (b1 : IOBuffer)
    (h : readInt32Num b = .ok (v, b1)) :
    b1.data = b.data ∧ b1.littleEndian = b.littleEndian := by
  unfold readInt32Num at h
  split at h
  · rename_i w bA heq
    simp only [Except.ok.injEq, Prod.mk.injEq] at h
    rcases h with ⟨_, hb⟩
    subst hb
    rcases readInt32_ok b w bA heq with ⟨hd, hl, _⟩
    exact ⟨hd, hl⟩
  · exact Except.noConfusion h

theorem readFloat32Num_pres (b : IOBuffer) (v : JsNum) (b1 : IOBuffer)
    (h : readFloat32Num b = .ok (v, b1)) :
    b1.data = b.data ∧ b1.littleEndian = b.littleEndian := by
  unfold readFloat32Num at h
  split at h
  · rename_i w bA heq
    simp only [Except.ok.injEq, Prod.mk.injEq] at h
    rcases h with ⟨_, hb⟩
    subst hb
    rcases readFloat32_ok b w bA heq with ⟨hd, hl, _⟩
    exact ⟨hd, hl⟩
  · exact Except.noConfusion h

theorem readFloat64Num_pres (b : IOBuffer) (v : JsNum) (b1 : IOBuffer)
    (h : readFloat64Num b = .ok (v, b1)) :
    b1.data = b.data ∧ b1.littleEndian = b.littleEndian := by
  unfold readFloat64Num at h
  split at h
  · rename_i w bA heq
    simp only [Except.ok.injEq, Prod.mk.injEq] at h
    rcases h with ⟨_, hb⟩
    subst hb
    rcases readFloat64_ok b w bA heq with ⟨hd, hl, _⟩
    exact ⟨hd, hl⟩
  · exact Except.noConfusion h

theorem readType_pres (b : IOBuffer) (t : Int) (s : JsDiv) (v : Value) (b1 : IOBuffer)
    (h : readType b t s = .ok (v, b1)) :
    b1.data = b.data ∧ b1.littleEndian = b.littleEndian := by
  unfold readType at h
  split at h
  · split at h
    · rename_i bs bA heq
      simp only [Except.ok.injEq, Prod.mk.injEq] at h
      rcases h with ⟨_, hb⟩
      subst hb
      exact readBytes_pres b s bs bA heq
    · exact Except.noConfusion h
  · split at h
    · split at h
      · rename_i sstr bA heq
        simp only [Except.ok.injEq, Prod.mk.injEq] at h
        rcases h with ⟨_, hb⟩
        subst hb
        rcases readChars_ok b (jsLoopCount s) sstr bA heq with ⟨hd, hl, _, _⟩
        exact ⟨hd, hl⟩
      · exact Except.noConfusion h
    · split at h
      · exact readNumber_pres s readInt16Num readInt16Num_pres b v b1 h
      · split at h
        · exact readNumber_pres s readInt32Num readInt32Num_pres b v b1 h
        · split at h
          · exact readNumber_pres s readFloat32Num readFloat32Num_pres b v b1 h
          · split at h
            · exact readNumber_pres s readFloat64Num readFloat64Num_pres b v b1 h
            · exact Except.noConfusion h

theorem nonRecordLoop_ok (t : Int) (n : Nat) :
    ∀ (b : IOBuffer) (vs : List Value) (b1 : IOBuffer),
      nonRecordLoop t n b = .ok (vs, b1) →
      vs.length = n ∧ b1.data = b.data ∧ b1.littleEndian = b.littleEndian := by
  induction n with
  | zero =>
    intro b vs b1 h
    simp only [nonRecordLoop, Except.ok.injEq, Prod.mk.injEq] at h
    rcases h with ⟨hv, hb⟩
    subst hb
    subst hv
    exact ⟨rfl, rfl, rfl⟩
  | succ m ih =>
    intro b vs b1 h
    simp only [nonRecordLoop] at h
    split at h
    · exact Except.noConfusion h
    · rename_i v2 bA heq
      split at h
      · exact Except.noConfusion h
      · rename_i vs2 bB heq2
        simp only [Except.ok.injEq, Prod.mk.injEq] at h
        rcases h with ⟨hv, hb⟩
        subst hb
        rcases readType_pres b t ⟨1, 1⟩ v2 bA heq with ⟨hd, hl⟩
        rcases ih bA vs2 bB heq2 with ⟨hlen, hd2, hl2⟩
        refine ⟨?_, by rw [hd2, hd], by rw [hl2, hl]⟩
        rw [← hv]
        simp [hlen]

theorem nonRecord_ok (b : IOBuffer) (v : Variable) (d : List Value) (b1 : IOBuffer)
    (h : nonRecord b v = .ok (d, b1)) :
    jsArrayLength ⟨v.size, num2bytes (str2num v.type)⟩ = .ok d.length ∧
    b1.data = b.data ∧ b1.littleEndian = b.littleEndian := by
  simp only [nonRecord] at h
  split at h
  · exact Except.noConfusion h
  · rename_i size heq
    rcases nonRecordLoop_ok (str2num v.type) size b d b1 h with ⟨hlen, hd, hl⟩
    rw [heq, hlen]
    exact ⟨rfl, hd, hl⟩

theorem jsArrayLength_div (a : Nat) (bt : Int) (hpos : 0 < bt) (hdvd : bt.toNat ∣ a) :
    jsArrayLength ⟨a, bt⟩ = .ok (a / bt.toNat) := by
  unfold jsArrayLength
  rw [if_pos hpos, if_pos hdvd]

/-- Claim C9: for a non-record variable of a valid type whose size is a
multiple of the element width, `getDataVariable` produces exactly
`size / size_bytes(type)` elements; on the concrete SHORT scenario
(size 6, offset 80, data bytes 00 01 00 02 00 03) it yields [1, 2, 3],
reading contiguously from the variable's offset. -/
theorem nonRecord_extraction_spec :
    (∀ (r : NetCDFReader) (name : String) (v : Variable) (data : List Value)
       (r1 : NetCDFReader),
      find Variable.name r.header.variables name = .val v →
      v.record = false →
      0 < num2bytes (str2num v.type) →
      (num2bytes (str2num v.type)).toNat ∣ v.size →
      getDataVariable r name = .ok (data, r1) →
      data.length = v.size / (num2bytes (str2num v.type)).toNat) ∧
    getDataVariable shortReader "v" = .ok (shortData, shortReaderAfter) := by
  constructor
  · intro r name v data r1 h1 h2 h3 h4 h5
    unfold getDataVariable at h5
    rw [h1] at h5
    simp only [jsVal_val_beq_undef, notNetcdf_false, h2, Bool.false_eq_true,
      if_false] at h5
    split at h5
    · exact Except.noConfusion h5
    · rename_i d bB heq
      simp only [Except.ok.injEq, Prod.mk.injEq] at h5
      rcases h5 with ⟨hd, _⟩
      subst hd
      rcases nonRecord_ok (r.buffer.seek v.offset) v d bB heq with ⟨hlen, _, _⟩
      rw [jsArrayLength_div v.size (num2bytes (str2num v.type)) h3 h4] at hlen
      simp only [Except.ok.injEq] at hlen
      omega
  · rfl

/-- Witness for C9, applying the quantified conjunct to the concrete SHORT
scenario. -/
theorem nonRecord_extraction_spec_witness :
    find Variable.name shortReader.header.variables "v" = .val shortVar ∧
    shortData.length = shortVar.size / (num2bytes (str2num shortVar.type)).toNat :=
  ⟨rfl, nonRecord_extraction_spec.1 shortReader "v" shortVar shortData shortReaderAfter
     rfl rfl (by decide) (by decide) rfl⟩

/-- Claim C10: for a non-record variable found by name, a second
`getDataVariable` call on the reader returned by the first yields the same
values and the same reader state: the byte image is immutable and each call
re-seeks to the variable's offset, so the shared cursor mutation does not
change the result. -/
theorem getDataVariable_idempotent (r : NetCDFReader) (name : String) (v : Variable)
    (data : List Value) (r1 : NetCDFReader)
    (h1 : find Variable.name r.header.variables name = .val v)
    (h2 : v.record = false)
    (h3 : getDataVariable r name = .ok (data, r1)) :
    getDataVariable r1 name = .ok (data, r1) := by
  unfold getDataVariable at h3 ⊢
  rw [h1] at h3
  simp only [jsVal_val_beq_undef, notNetcdf_false, h2, Bool.false_eq_true,
    if_false] at h3
  split at h3
  · exact Except.noConfusion h3
  · rename_i d bB heq
    simp only [Except.ok.injEq, Prod.mk.injEq] at h3
    rcases h3 with ⟨hd, hr1⟩
    subst hd
    subst hr1
    rcases nonRecord_ok (r.buffer.seek v.offset) v d bB heq with ⟨_, hdta, hle⟩
    dsimp only [IOBuffer.seek] at hdta hle
    simp only [h1, jsVal_val_beq_undef, notNetcdf_false, h2, Bool.false_eq_true,
      if_false]
    have hseek : bB.seek v.offset = r.buffer.seek v.offset := by
      simp only [IOBuffer.seek]
      rw [hdta, hle]
    rw [hseek, heq]

/-- Witness for C10 on the concrete SHORT scenario. -/
theorem getDataVariable_idempotent_witness :
    getDataVariable shortReaderAfter "v" = .ok (shortData, shortReaderAfter) :=
  getDataVariable_idempotent shortReader "v" shortVar shortData shortReaderAfter
    rfl rfl rfl

theorem recordLoop_ok (t : Int) (w : JsDiv) (s : Nat) (n : Nat) :
    ∀ (b : IOBuffer) (vs : List Value) (b1 : IOBuffer),
      recordLoop t w s n b = .ok (vs, b1) →
      vs.length = n ∧
      ∀ (i : Nat) (hi : i < vs.length),
        (readType (IOBuffer.mk b.data (b.offset + i * s) b.littleEndian) t w).toOption.map
          Prod.fst = some (vs.get ⟨i, hi⟩) := by
  induction n with
  | zero =>
    intro b vs b1 h
    simp only [recordLoop, Except.ok.injEq, Prod.mk.injEq] at h
    rcases h with ⟨hv, _⟩
    subst hv
    exact ⟨rfl, fun i hi => absurd hi (by simp)⟩
  | succ m ih =>
    intro b vs b1 h
    simp only [recordLoop] at h
    split at h
    · exact Except.noConfusion h
    · rename_i v bA heq
      split at h
      · exact Except.noConfusion h
      · rename_i vs2 bB heq2
        simp only [Except.ok.injEq, Prod.mk.injEq] at h
        rcases h with ⟨hv, _⟩
        rcases readType_pres b t w v bA heq with ⟨hd, hl⟩
        rcases ih (bA.seek (b.offset + s)) vs2 bB heq2 with ⟨hlen, hentry⟩
        subst hv
        refine ⟨by simp [hlen], ?_⟩
        intro i hi
        cases i with
        | zero =>
          simp only [Nat.zero_mul, Nat.add_zero]
          have hb : IOBuffer.mk b.data b.offset b.littleEndian = b := rfl
          rw [hb, heq]
          rfl
        | succ j =>
          have hj : j < vs2.length := by
            simp only [List.length_cons] at hi
            omega
          have hent := hentry j hj
          dsimp only [IOBuffer.seek] at hent
          rw [hd, hl] at hent
          have harith : b.offset + s + j * s = b.offset + (j + 1) * s := by ring
          rw [harith] at hent
          simpa using hent

/-- Claim C4: for a record variable found by name (with a numeric record
step), a successful `getDataVariable` call returns exactly
`record_dimension.length` entries; entry `i` is one `readType` slice of
`width = size / size_bytes(type)` elements (`width = 1` when `size = 0`)
read at byte offset `v.offset + i * record_step`; zero records give the
empty sequence. -/
theorem getDataVariable_record_spec (r : NetCDFReader) (name : String) (v : Variable)
    (step : Nat) (data : List Value) (r1 : NetCDFReader)
    (h1 : find Variable.name r.header.variables name = .val v)
    (h2 : v.record = true)
    (h3 : r.header.recordDimension.recordStep = .val step)
    (h4 : getDataVariable r name = .ok (data, r1)) :
    data.length = r.header.recordDimension.length ∧
    (r.header.recordDimension.length = 0 → data = []) ∧
    ∀ (i : Nat) (hi : i < data.length),
      (readType (IOBuffer.mk r.buffer.data (v.offset + i * step) r.buffer.littleEndian)
        (str2num v.type)
        (if v.size ≠ 0 then JsDiv.mk v.size (num2bytes (str2num v.type))
         else ⟨1, 1⟩)).toOption.map Prod.fst = some (data.get ⟨i, hi⟩) := by
  unfold getDataVariable at h4
  rw [h1] at h4
  simp only [jsVal_val_beq_undef, notNetcdf_false, h2, if_true] at h4
  simp only [record] at h4
  rw [h3] at h4
  dsimp only [jsNumber] at h4
  split at h4
  · exact Except.noConfusion h4
  · rename_i d bB heq
    simp only [Except.ok.injEq, Prod.mk.injEq] at h4
    rcases h4 with ⟨hd, _⟩
    subst hd
    rcases recordLoop_ok (str2num v.type)
        (if v.size ≠ 0 then JsDiv.mk v.size (num2bytes (str2num v.type)) else ⟨1, 1⟩)
        step r.header.recordDimension.length (r.buffer.seek v.offset) d bB heq
      with ⟨hlen, hentry⟩
    refine ⟨hlen, ?_, ?_⟩
    · intro h0
      exact List.eq_nil_of_length_eq_zero (by omega)
    · intro i hi
      have hent := hentry i hi
      dsimp only [IOBuffer.seek] at hent
      exact hent

/-- Witness for C4 on the concrete two-record SHORT scenario. -/
theorem getDataVariable_record_spec_witness :
    recVar.record = true ∧
    (recData.length = recReader.header.recordDimension.length ∧
     (recReader.header.recordDimension.length = 0 → recData = []) ∧
     ∀ (i : Nat) (hi : i < recData.length),
       (readType (IOBuffer.mk recReader.buffer.data (recVar.offset + i * 4)
          recReader.buffer.littleEndian) (str2num recVar.type)
          (if recVar.size ≠ 0 then JsDiv.mk recVar.size (num2bytes (str2num recVar.type))
           else ⟨1, 1⟩)).toOption.map Prod.fst = some (recData.get ⟨i, hi⟩)) :=
  ⟨rfl, getDataVariable_record_spec recReader "a" recVar 4 recData recReaderAfter
     rfl rfl rfl rfl⟩

end NetCDF

